import Mathlib

/-
  Verification of the FilePizza uploader core: the per-connection transfer
  protocol of useUploaderConnections (src/src/components/WebRTCProvider.tsx)
  and the channel destroy endpoint (src/unnamed/part_001).

  The embedding translates the event-driven handlers of the source into an
  explicit step function on a connection-state record. One call of the step
  function corresponds to one dispatched event: an incoming decoded message,
  a decode failure, the firing of the pending sendChunkTimeout, or a
  transport close. The messages passed to conn.send during that event are
  returned alongside the new state.
-/

namespace FilePizza

/-- Modelled from the spec: the UploadedFile type and the fs.getFileName
accessor live outside src (only their uses are present). Per the data model
(spec section 3) an uploaded file descriptor carries a name, a byte size, a
mime type and a byte-range accessor; byteAt gives the byte at an index. -/
structure UploadedFile where
  fileName : String
  size : Nat
  type : String
  byteAt : Nat → Nat

/-- Modelled from the spec: fs.getFileName is not under src; it returns the
name of the descriptor. -/
def getFileName (f : UploadedFile) : String :=
  f.fileName

-- src/src/components/WebRTCProvider.tsx line 125: 128 * 1024
def MAX_CHUNK_SIZE : Nat := 128 * 1024

/-- file.slice(a, b) of the source: the bytes at indices in the interval
from a inclusive to b exclusive (empty when b ≤ a). -/
def sliceBytes (f : UploadedFile) (a b : Nat) : List Nat :=
  (List.range' a (b - a)).map f.byteAt

/-- The advisory client metadata carried by a RequestInfo message. -/
structure ClientInfo where
  browserName : String
  browserVersion : String
  osName : String
  osVersion : String
  mobileVendor : Option String
  mobileModel : Option String
deriving DecidableEq

/-- The entries of an Info message: the offered file catalog. -/
structure FileInfo where
  fileName : String
  size : Nat
  type : String
deriving DecidableEq

/-- Modelled from the spec: the decoded protocol message union of
src/src/messages (not under src); the variants and payloads follow the
table in spec section 6 and the uses in WebRTCProvider.tsx. -/
inductive Message where
  | RequestInfo (info : ClientInfo)
  | PasswordRequired (errorMessage : Option String)
  | UsePassword (password : String)
  | Info (files : List FileInfo)
  | Start (fileName : String) (offset : Nat)
  | Pause
  | Chunk (fileName : String) (offset : Nat) (bytes : List Nat) (final : Bool)
  | Done
  | Report
deriving DecidableEq

/-- The per-connection status enumeration of src/src/types (not under src;
the variant names are exactly those used in WebRTCProvider.tsx). -/
inductive UploaderConnectionStatus where
  | Pending
  | Authenticating
  | InvalidPassword
  | Ready
  | Uploading
  | Paused
  | Done
  | Closed
deriving DecidableEq

/-- The closure state of sendNextChunkAsync: the pending setTimeout holds
the validated file, the requested file name and the current offset. -/
structure PendingChunk where
  file : UploadedFile
  fileName : String
  offset : Nat

/-- One UploaderConnection record. pendingChunk models the sendChunkTimeout
variable (some when a chunk-emission timeout is scheduled). connClosed
records that the uploader side called conn.close(). currentFileProgress, a
display-only floating point ratio, is not modelled. -/
structure ConnState where
  status : UploaderConnectionStatus
  completedFiles : Nat
  totalFiles : Nat
  clientInfo : Option ClientInfo
  uploadingFileName : Option String
  uploadingOffset : Option Nat
  pendingChunk : Option PendingChunk
  connClosed : Bool

/-- The connection record created when a (non-report) connection arrives. -/
def initConn (files : List UploadedFile) : ConnState :=
  { status := .Pending
    completedFiles := 0
    totalFiles := files.length
    clientInfo := none
    uploadingFileName := none
    uploadingOffset := none
    pendingChunk := none
    connClosed := false }

/-- validateOffset of WebRTCProvider.tsx lines 127-139: the first offered
file whose name equals the requested one and whose size the offset does not
exceed; none models the thrown error. -/
def validateOffset (files : List UploadedFile) (fileName : String) (offset : Nat) :
    Option UploadedFile :=
  files.find? (fun file => getFileName file == fileName && decide (offset ≤ file.size))

/-- The catalog sent in an Info message (fileInfo of the source). -/
def fileCatalog (files : List UploadedFile) : List FileInfo :=
  files.map (fun f => { fileName := getFileName f, size := f.size, type := f.type })

/-- One event dispatched to a connection: data carries a decoded message
(none models a payload decodeMessage rejects), tick is the firing of the
scheduled sendChunkTimeout, transportClose is the close event. -/
inductive Event where
  | data (msg : Option Message)
  | tick
  | transportClose
deriving DecidableEq

/-- The uploader-side connection step: the onData handler (including its
catch clause), the sendNextChunkAsync timeout body, and the onClose handler
of WebRTCProvider.tsx, as one transition returning the new connection state
and the messages sent to this connection during the event. -/
def step (files : List UploadedFile) (password : String) (st : ConnState) (ev : Event) :
    ConnState × List Message :=
  match ev with
  | .transportClose =>
      -- onClose, lines 451-472: clearTimeout, then the guarded status update
      ({ st with
          pendingChunk := none
          status :=
            if st.status = .InvalidPassword ∨ st.status = .Done then st.status
            else .Closed }, [])
  | .tick =>
      -- the setTimeout body of sendNextChunkAsync, lines 335-374
      match st.pendingChunk with
      | none => (st, [])
      | some p =>
          if min p.file.size (p.offset + MAX_CHUNK_SIZE) - p.offset < MAX_CHUNK_SIZE then
            ({ st with
                status := .Ready
                completedFiles := st.completedFiles + 1
                pendingChunk := none },
             [.Chunk p.fileName p.offset
                (sliceBytes p.file p.offset (min p.file.size (p.offset + MAX_CHUNK_SIZE))) true])
          else
            ({ st with
                uploadingOffset := some (min p.file.size (p.offset + MAX_CHUNK_SIZE))
                pendingChunk := some { p with offset := min p.file.size (p.offset + MAX_CHUNK_SIZE) } },
             [.Chunk p.fileName p.offset
                (sliceBytes p.file p.offset (min p.file.size (p.offset + MAX_CHUNK_SIZE))) false])
  | .data none =>
      -- decodeMessage threw: the catch clause, lines 436-448
      ({ st with status := .Closed, connClosed := true }, [])
  | .data (some msg) =>
      match msg with
      | .RequestInfo info =>
          if password ≠ "" then
            (if st.status = .Pending then
               { st with clientInfo := some info, status := .Authenticating }
             else st,
             [.PasswordRequired none])
          else
            (if st.status = .Pending then
               { st with clientInfo := some info, status := .Ready }
             else st,
             [.Info (fileCatalog files)])
      | .UsePassword submitted =>
          if submitted = password then
            (if st.status = .Authenticating ∨ st.status = .InvalidPassword then
               { st with status := .Ready }
             else st,
             [.Info (fileCatalog files)])
          else
            (if st.status = .Authenticating then
               { st with status := .InvalidPassword }
             else st,
             [.PasswordRequired (some "Invalid password")])
      | .Start fileName offset =>
          match validateOffset files fileName offset with
          | none =>
              -- validateOffset threw: handled by the catch clause
              ({ st with status := .Closed, connClosed := true }, [])
          | some file =>
              if st.status = .Ready ∨ st.status = .Paused then
                ({ st with
                    status := .Uploading
                    uploadingFileName := some fileName
                    uploadingOffset := some offset
                    pendingChunk := some ⟨file, fileName, offset⟩ }, [])
              else (st, [])
      | .Pause =>
          if st.status = .Uploading then
            ({ st with status := .Paused, pendingChunk := none }, [])
          else (st, [])
      | .Done =>
          if st.status = .Ready then
            ({ st with status := .Done, connClosed := true }, [])
          else (st, [])
      | _ => (st, [])

/-- Dispatch a list of events to one connection, collecting every message
sent to it in order. -/
def run (files : List UploadedFile) (password : String) :
    ConnState → List Event → ConnState × List Message
  | st, [] => (st, [])
  | st, e :: es =>
      ((run files password (step files password st e).1 es).1,
       (step files password st e).2 ++ (run files password (step files password st e).1 es).2)

/-- One emitted Chunk message, as a record for stating chunk-level facts. -/
structure ChunkMsg where
  fileName : String
  offset : Nat
  bytes : List Nat
  final : Bool
deriving DecidableEq

def ChunkMsg.toMessage (c : ChunkMsg) : Message :=
  .Chunk c.fileName c.offset c.bytes c.final

/-- The chunk emission loop of sendNextChunkAsync as a pure function: the
chunks the timeout chain sends for the given file starting at the given
offset, in order. -/
def emitChunksFrom (file : UploadedFile) (fileName : String) (offset : Nat) :
    List ChunkMsg :=
  if h : min file.size (offset + MAX_CHUNK_SIZE) - offset < MAX_CHUNK_SIZE then
    [{ fileName := fileName
       offset := offset
       bytes := sliceBytes file offset (min file.size (offset + MAX_CHUNK_SIZE))
       final := true }]
  else
    { fileName := fileName
      offset := offset
      bytes := sliceBytes file offset (min file.size (offset + MAX_CHUNK_SIZE))
      final := false }
      :: emitChunksFrom file fileName (min file.size (offset + MAX_CHUNK_SIZE))
termination_by file.size - offset
decreasing_by
  simp only [MAX_CHUNK_SIZE] at h ⊢
  omega

/-- The full byte content of a file. -/
def fileBytes (f : UploadedFile) : List Nat :=
  sliceBytes f 0 f.size

/-- A chunk list starts at the given offset and is gapless: each chunk
begins exactly where the previous one ended. -/
def contiguousFrom : Nat → List ChunkMsg → Bool
  | _, [] => true
  | a, c :: rest => c.offset == a && contiguousFrom (c.offset + c.bytes.length) rest

def isChunk : Message → Bool
  | .Chunk _ _ _ _ => true
  | _ => false

def isInfo : Message → Bool
  | .Info _ => true
  | _ => false

def isRequestInfoEvent : Event → Bool
  | .data (some (.RequestInfo _)) => true
  | _ => false

/-- The report branch of the connection listener, lines 155-173: closing a
sibling fires its close event, so the sibling state is the onClose result
with connClosed set. -/
def closeConnection (files : List UploadedFile) (password : String) (c : ConnState) :
    ConnState :=
  { (step files password c .transportClose).1 with connClosed := true }

/-- What the report branch of the listener does. The listener closure reads
the connections state variable directly, and the effect that registers the
listener has the dependency list peer, files, password — not connections —
so the closure forever sees the snapshot of the connection array from the
render whose effect ran, typically the empty array from mount; connections
added later are only reachable through the functional setConnections
updates, which this branch does not use. The branch therefore sends a
Report to and closes exactly the snapshot members, then hard-redirects the
page. Connections are identified by an id: snapshot is the list of ids the
closure captured, current the live id-to-state list; a current connection
whose id is outside the snapshot is untouched. The report connection
itself is returned as the branch leaves it: it is never added to the
connection list and no close call is made on it. -/
structure ReportOutcome where
  sends : List (Nat × Message)
  newConns : List (Nat × ConnState)
  reportConn : ConnState
  redirected : Bool

def handleReportConnection (files : List UploadedFile) (password : String)
    (reportConn : ConnState) (snapshot : List Nat)
    (current : List (Nat × ConnState)) : ReportOutcome :=
  { sends := snapshot.map (fun i => (i, Message.Report))
    newConns := current.map (fun ic =>
      if snapshot.contains ic.1 then (ic.1, closeConnection files password ic.2) else ic)
    reportConn := reportConn
    redirected := true }

/-- Modelled from the spec: the channel repository (src/src/channel) is not
under src, only the destroy API route that calls it. Per spec sections 3
and 4.2 a record carries a short slug, a long slug alias, the owner peer
id, a secret and an expiry instant, and exists for lookups only while
unexpired. -/
structure ChannelRecord where
  shortSlug : String
  longSlug : String
  ownerPeerID : String
  secret : String
  expiresAt : Nat
deriving DecidableEq

abbrev ChannelRepo := List ChannelRecord

def matchesSlug (r : ChannelRecord) (slug : String) : Bool :=
  r.shortSlug == slug || r.longSlug == slug

/-- Modelled from the spec: destroyChannel removes the record reachable
under the slug and always succeeds, even when the slug is absent
(spec section 4.2, destroy). -/
def destroyChannel (repo : ChannelRepo) (slug : String) : ChannelRepo :=
  repo.filter (fun r => !(matchesSlug r slug))

/-- Modelled from the spec: resolve returns the owner peer id of an
unexpired record reachable under the slug, and NotFound (none) when the
slug is absent or expired (spec section 4.2, resolve). -/
def resolveChannel (repo : ChannelRepo) (slug : String) (now : Nat) : Option String :=
  (repo.find? (fun r => matchesSlug r slug && decide (now < r.expiresAt))).map
    (fun r => r.ownerPeerID)

structure DestroyResponse where
  status : Nat
  success : Bool
deriving DecidableEq

/-- The destroy endpoint POST of src/unnamed/part_001: none models a body
without a slug field; the empty string is also rejected because the source
tests JavaScript truthiness. The repository after the call is returned. -/
def destroyPOST (repo : ChannelRepo) (slug : Option String) :
    DestroyResponse × ChannelRepo :=
  match slug with
  | none => ({ status := 400, success := false }, repo)
  | some s =>
      if s = "" then ({ status := 400, success := false }, repo)
      else ({ status := 200, success := true }, destroyChannel repo s)

/-- A connection that has not passed the password gate: its status is one
of the states reachable without a correct UsePassword and no chunk timeout
is scheduled. -/
def unauth (st : ConnState) : Prop :=
  (st.status = .Pending ∨ st.status = .Authenticating ∨
   st.status = .InvalidPassword ∨ st.status = .Closed) ∧ st.pendingChunk = none

/-! Concrete instances used by the witness theorems. -/

def pw0 : String := "pw"

def ci0 : ClientInfo :=
  { browserName := "b", browserVersion := "1", osName := "o", osVersion := "1"
    mobileVendor := none, mobileModel := none }

/-- A three-byte file. -/
def f3 : UploadedFile :=
  { fileName := "a", size := 3, type := "t", byteAt := fun i => i }

/-- A five-byte file. -/
def f5 : UploadedFile :=
  { fileName := "f", size := 5, type := "t", byteAt := fun i => i }

/-- An empty file. -/
def emptyFile : UploadedFile :=
  { fileName := "e", size := 0, type := "t", byteAt := fun _ => 0 }

/-- A 300000-byte file, the size of the chunking scenario. -/
def f300 : UploadedFile :=
  { fileName := "big", size := 300000, type := "t", byteAt := fun _ => 0 }

/-- Handshake, correct password, start of the only file, one chunk timeout. -/
def events4 : List Event :=
  [.data (some (.RequestInfo ci0)), .data (some (.UsePassword pw0)),
   .data (some (.Start f3.fileName 0)), .tick]

def reqEv : Event := .data (some (.RequestInfo ci0))

def stReady : ConnState := { initConn [emptyFile] with status := .Ready }

def stUploading : ConnState := { initConn [f5] with status := .Uploading }

def stDone : ConnState := { initConn [] with status := .Done }

/-! Helper lemmas about the chunk emission loop. -/

lemma length_sliceBytes (f : UploadedFile) (a b : Nat) :
    (sliceBytes f a b).length = b - a := by
  simp [sliceBytes]

lemma sliceBytes_append (f : UploadedFile) (a b c : Nat) (h1 : a ≤ b) (h2 : b ≤ c) :
    sliceBytes f a b ++ sliceBytes f b c = sliceBytes f a c := by
  unfold sliceBytes
  rw [← List.map_append]
  congr 1
  have h3 := List.range'_append_1 a (b - a) (c - b)
  rw [Nat.add_sub_cancel' h1] at h3
  rw [h3]
  congr 1
  omega

lemma emit_flatten (f : UploadedFile) (fn : String) (off : Nat) :
    ((emitChunksFrom f fn off).map (fun c => c.bytes)).flatten = sliceBytes f off f.size := by
  induction off using emitChunksFrom.induct f fn with
  | case1 o h =>
      have he : min f.size (o + MAX_CHUNK_SIZE) = f.size := by
        simp only [MAX_CHUNK_SIZE] at h ⊢
        omega
      rw [emitChunksFrom.eq_def, dif_pos h, he]
      simp
  | case2 o h ih =>
      have hle : o ≤ min f.size (o + MAX_CHUNK_SIZE) := by
        simp only [MAX_CHUNK_SIZE] at h ⊢
        omega
      rw [emitChunksFrom.eq_def, dif_neg h]
      simp only [List.map_cons, List.flatten_cons, ih]
      exact sliceBytes_append f o (min f.size (o + MAX_CHUNK_SIZE)) f.size hle
        (Nat.min_le_left _ _)

lemma emit_final_split (f : UploadedFile) (fn : String) (off : Nat) :
    ∃ front lastC, emitChunksFrom f fn off = front ++ [lastC] ∧ lastC.final = true ∧
      ∀ c ∈ front, c.final = false := by
  induction off using emitChunksFrom.induct f fn with
  | case1 o h =>
      rw [emitChunksFrom.eq_def, dif_pos h]
      exact ⟨[], _, rfl, rfl, by simp⟩
  | case2 o h ih =>
      obtain ⟨front, lastC, heq, hfin, hfront⟩ := ih
      rw [emitChunksFrom.eq_def, dif_neg h]
      refine ⟨{ fileName := fn, offset := o
                bytes := sliceBytes f o (min f.size (o + MAX_CHUNK_SIZE))
                final := false } :: front, lastC, by simp [heq], hfin, ?_⟩
      intro c hc
      rcases List.mem_cons.mp hc with rfl | hc2
      · rfl
      · exact hfront c hc2

lemma emit_contiguous (f : UploadedFile) (fn : String) (off : Nat) :
    contiguousFrom off (emitChunksFrom f fn off) = true := by
  induction off using emitChunksFrom.induct f fn with
  | case1 o h =>
      rw [emitChunksFrom.eq_def, dif_pos h]
      simp [contiguousFrom]
  | case2 o h ih =>
      have hlen : o + (sliceBytes f o (min f.size (o + MAX_CHUNK_SIZE))).length
          = min f.size (o + MAX_CHUNK_SIZE) := by
        rw [length_sliceBytes]
        simp only [MAX_CHUNK_SIZE] at h ⊢
        omega
      rw [emitChunksFrom.eq_def, dif_neg h]
      simp only [contiguousFrom]
      rw [hlen]
      simp [ih]

lemma contiguous_ge :
    ∀ (l : List ChunkMsg) (a : Nat), contiguousFrom a l = true →
      ∀ c ∈ l, a ≤ c.offset := by
  intro l
  induction l with
  | nil => intro a _ c hc; simp at hc
  | cons c0 rest ih =>
      intro a h c hc
      simp only [contiguousFrom, Bool.and_eq_true, beq_iff_eq] at h
      rcases List.mem_cons.mp hc with rfl | hc2
      · omega
      · have := ih (c0.offset + c0.bytes.length) h.2 c hc2
        omega

/-! Helper lemmas about the connection machine. -/

lemma run_ticks (files : List UploadedFile) (pw : String) (file : UploadedFile)
    (fn : String) (off : Nat) :
    ∀ st : ConnState, st.pendingChunk = some ⟨file, fn, off⟩ →
      (run files pw st (List.replicate (emitChunksFrom file fn off).length Event.tick)).2
        = (emitChunksFrom file fn off).map ChunkMsg.toMessage := by
  induction off using emitChunksFrom.induct file fn with
  | case1 o h =>
      intro st hst
      rw [emitChunksFrom.eq_def, dif_pos h]
      simp only [List.length_cons, List.length_nil, List.replicate_succ, List.replicate_zero]
      simp [run, step, hst, if_pos h, ChunkMsg.toMessage]
  | case2 o h ih =>
      intro st hst
      rw [emitChunksFrom.eq_def, dif_neg h]
      simp only [List.length_cons, List.replicate_succ]
      have hnext := ih
        { st with
            uploadingOffset := some (min file.size (o + MAX_CHUNK_SIZE))
            pendingChunk := some ⟨file, fn, min file.size (o + MAX_CHUNK_SIZE)⟩ } rfl
      simp [run, step, hst, if_neg h, ChunkMsg.toMessage, hnext]

lemma ticks_noop (files : List UploadedFile) (pw : String) :
    ∀ (n : Nat) (st : ConnState), st.pendingChunk = none →
      run files pw st (List.replicate n Event.tick) = (st, []) := by
  intro n
  induction n with
  | zero => intro st h; simp [run]
  | succ n ih =>
      intro st h
      simp [List.replicate_succ, run, step, h, ih st h]

lemma step_unauth (files : List UploadedFile) (pw : String) (hpw : pw ≠ "")
    (st : ConnState) (e : Event) (h : unauth st)
    (hnot : ¬(e = .data (some (.UsePassword pw)) ∧
        (st.status = .Authenticating ∨ st.status = .InvalidPassword))) :
    unauth (step files pw st e).1 ∧ ∀ m ∈ (step files pw st e).2, isChunk m = false := by
  obtain ⟨hs, hp⟩ := h
  have hnr : ¬(st.status = .Ready ∨ st.status = .Paused) := by
    rcases hs with h1 | h1 | h1 | h1 <;> simp [h1]
  have hnu : st.status ≠ .Uploading := by
    rcases hs with h1 | h1 | h1 | h1 <;> simp [h1]
  have hnd : st.status ≠ .Ready := by
    rcases hs with h1 | h1 | h1 | h1 <;> simp [h1]
  cases e with
  | transportClose =>
      refine ⟨⟨?_, rfl⟩, by simp [step]⟩
      simp only [step]
      rcases hs with h1 | h1 | h1 | h1 <;> simp [h1]
  | tick =>
      simp only [step, hp]
      exact ⟨⟨hs, hp⟩, by simp⟩
  | data om =>
      cases om with
      | none => exact ⟨⟨by simp [step], by simp [step, hp]⟩, by simp [step]⟩
      | some m =>
        cases m with
        | RequestInfo info =>
            simp only [step, if_pos hpw]
            by_cases hP : st.status = .Pending
            · simp [hP, unauth, hp, isChunk]
            · simp [hP, unauth, hp, isChunk]
              tauto
        | UsePassword q =>
            by_cases hq : q = pw
            · have hni : ¬(st.status = .Authenticating ∨ st.status = .InvalidPassword) := by
                intro hc
                exact hnot ⟨by rw [hq], hc⟩
              simp [step, hq, hni, unauth, hs, hp, isChunk]
            · simp only [step, if_neg hq]
              by_cases hA : st.status = .Authenticating
              · simp [hA, unauth, hp, isChunk]
              · simp [hA, unauth, hp, isChunk]
                tauto
        | Start fn off =>
            simp only [step]
            cases hv : validateOffset files fn off with
            | none => simp [unauth, hp, isChunk]
            | some file => simp [if_neg hnr, unauth, hs, hp]
        | Pause => simp [step, hnu, unauth, hs, hp]
        | Done => simp [step, hnd, unauth, hs, hp]
        | PasswordRequired em => simp [step, unauth, hs, hp]
        | Info fs => simp [step, unauth, hs, hp]
        | Chunk a b c d => simp [step, unauth, hs, hp]
        | Report => simp [step, unauth, hs, hp]

lemma run_unauth (files : List UploadedFile) (pw : String) (hpw : pw ≠ "") :
    ∀ (events : List Event) (st : ConnState), unauth st →
      (∀ l1 l2, events = l1 ++ Event.data (some (Message.UsePassword pw)) :: l2 →
         ¬((run files pw st l1).1.status = .Authenticating ∨
           (run files pw st l1).1.status = .InvalidPassword)) →
      ∀ m ∈ (run files pw st events).2, isChunk m = false := by
  intro events
  induction events with
  | nil =>
      intro st _ _ m hm
      simp [run] at hm
  | cons e es ih =>
      intro st hu hsplit m hm
      have hnot : ¬(e = .data (some (.UsePassword pw)) ∧
          (st.status = .Authenticating ∨ st.status = .InvalidPassword)) := by
        rintro ⟨he, hst⟩
        exact hsplit [] es (by simp [he]) (by simpa [run] using hst)
      obtain ⟨hu2, hout⟩ := step_unauth files pw hpw st e hu hnot
      simp only [run, List.mem_append] at hm
      rcases hm with h1 | h2
      · exact hout m h1
      · refine ih (step files pw st e).1 hu2 ?_ m h2
        intro l1 l2 hes
        have hh := hsplit (e :: l1) l2 (by rw [hes]; rfl)
        simpa [run] using hh

lemma validateOffset_eq_none_iff (files : List UploadedFile) (fn : String) (off : Nat) :
    validateOffset files fn off = none ↔
      ∀ f ∈ files, ¬(getFileName f = fn ∧ off ≤ f.size) := by
  simp [validateOffset, List.find?_eq_none, not_and]

lemma step_info (files : List UploadedFile) (pw : String) (st : ConnState) (e : Event) :
    (∃ m ∈ (step files pw st e).2, isInfo m = true) →
      isRequestInfoEvent e = true ∨ e = Event.data (some (Message.UsePassword pw)) := by
  intro hex
  obtain ⟨m, hm, hinfo⟩ := hex
  cases e with
  | transportClose => simp [step] at hm
  | tick =>
      cases hp : st.pendingChunk with
      | none => simp [step, hp] at hm
      | some p =>
          simp only [step, hp] at hm
          split at hm <;> simp at hm <;> subst hm <;> simp [isInfo] at hinfo
  | data om =>
      cases om with
      | none => simp [step] at hm
      | some msg =>
        cases msg with
        | RequestInfo info => simp [isRequestInfoEvent]
        | UsePassword q =>
            by_cases hq : q = pw
            · right; rw [hq]
            · simp only [step, if_neg hq, List.mem_singleton] at hm
              subst hm
              simp [isInfo] at hinfo
        | Start fn off =>
            simp only [step] at hm
            cases hv : validateOffset files fn off with
            | none =>
                rw [hv] at hm
                simp at hm
            | some file =>
                rw [hv] at hm
                by_cases hr : st.status = .Ready ∨ st.status = .Paused
                · simp [hr] at hm
                · simp [hr] at hm
        | Pause =>
            simp only [step] at hm
            by_cases hr : st.status = .Uploading
            · simp [hr] at hm
            · simp [hr] at hm
        | Done =>
            simp only [step] at hm
            by_cases hr : st.status = .Ready
            · simp [hr] at hm
            · simp [hr] at hm
        | PasswordRequired em => simp [step] at hm
        | Info fs => simp [step] at hm
        | Chunk a b c d => simp [step] at hm
        | Report => simp [step] at hm

/-! The claims. -/

/-- Claim C1: for every file and every starting offset, the chunk emission
loop computes end as the minimum of the file size and offset plus
MAX_CHUNK_SIZE, emits the chunk of the bytes in that interval with the
final flag set exactly when the chunk is shorter than MAX_CHUNK_SIZE, and
continues from end; in particular a 300000-byte file transferred from
offset 0 yields exactly three chunks of sizes 131072, 131072, 37856 with
final flags false, false, true at offsets 0, 131072, 262144. -/
theorem C1_chunk_emission :
    (∀ (file : UploadedFile) (fn : String) (off : Nat),
       emitChunksFrom file fn off =
         if min file.size (off + MAX_CHUNK_SIZE) - off < MAX_CHUNK_SIZE then
           [{ fileName := fn, offset := off
              bytes := sliceBytes file off (min file.size (off + MAX_CHUNK_SIZE))
              final := true }]
         else
           { fileName := fn, offset := off
             bytes := sliceBytes file off (min file.size (off + MAX_CHUNK_SIZE))
             final := false }
             :: emitChunksFrom file fn (min file.size (off + MAX_CHUNK_SIZE)))
  ∧ (∀ (file : UploadedFile) (fn : String), file.size = 300000 →
       (emitChunksFrom file fn 0).map (fun c => c.bytes.length) = [131072, 131072, 37856]
     ∧ (emitChunksFrom file fn 0).map (fun c => c.final) = [false, false, true]
     ∧ (emitChunksFrom file fn 0).map (fun c => c.offset) = [0, 131072, 262144]) := by
  constructor
  · intro file fn off
    rw [emitChunksFrom.eq_def, dite_eq_ite]
  · intro file fn h
    have h1 : ¬(min file.size (0 + MAX_CHUNK_SIZE) - 0 < MAX_CHUNK_SIZE) := by
      rw [h]; decide
    have e1 : min file.size (0 + MAX_CHUNK_SIZE) = 131072 := by
      rw [h]; decide
    have h2 : ¬(min file.size (131072 + MAX_CHUNK_SIZE) - 131072 < MAX_CHUNK_SIZE) := by
      rw [h]; decide
    have e2 : min file.size (131072 + MAX_CHUNK_SIZE) = 262144 := by
      rw [h]; decide
    have h3 : min file.size (262144 + MAX_CHUNK_SIZE) - 262144 < MAX_CHUNK_SIZE := by
      rw [h]; decide
    have e3 : min file.size (262144 + MAX_CHUNK_SIZE) = 300000 := by
      rw [h]; decide
    have hemit : emitChunksFrom file fn 0 =
        [{ fileName := fn, offset := 0, bytes := sliceBytes file 0 131072, final := false },
         { fileName := fn, offset := 131072, bytes := sliceBytes file 131072 262144, final := false },
         { fileName := fn, offset := 262144, bytes := sliceBytes file 262144 300000, final := true }] := by
      rw [emitChunksFrom.eq_def, dif_neg h1, e1, emitChunksFrom.eq_def, dif_neg h2, e2,
          emitChunksFrom.eq_def, dif_pos h3, e3]
    refine ⟨?_, ?_, ?_⟩ <;> rw [hemit] <;> simp [length_sliceBytes]

/-- Claim C1 witness: the scenario instantiated at a concrete 300000-byte
file. -/
theorem C1_chunk_emission_witness :
    f300.size = 300000
  ∧ (emitChunksFrom f300 f300.fileName 0).map (fun c => c.bytes.length)
      = [131072, 131072, 37856] :=
  ⟨rfl, (C1_chunk_emission.2 f300 f300.fileName rfl).1⟩

/-- Claim C2: concatenating the chunk payloads in emission order
reconstructs the file bytes exactly; the final flag is true on exactly the
last chunk; a transfer started at any offset a emits chunks that begin
exactly at a and are gapless, so nothing below a is retransmitted and no
gap is left; and after Pause during Uploading followed by Start with the
same file name and offset a, the machine is Paused with the timeout
cancelled and the subsequent timeout firings send exactly those chunks. -/
theorem C2_reconstruction :
    ∀ (file : UploadedFile) (fn : String),
      (((emitChunksFrom file fn 0).map (fun c => c.bytes)).flatten = fileBytes file)
    ∧ (∀ a, ∃ front lastC, emitChunksFrom file fn a = front ++ [lastC] ∧
          lastC.final = true ∧ ∀ c ∈ front, c.final = false)
    ∧ (∀ a, contiguousFrom a (emitChunksFrom file fn a) = true)
    ∧ (∀ a c, c ∈ emitChunksFrom file fn a → a ≤ c.offset)
    ∧ (∀ (files : List UploadedFile) (pw : String) (st : ConnState) (a : Nat),
        st.status = .Uploading →
        validateOffset files fn a = some file →
          (step files pw st (.data (some .Pause))).1.status = .Paused
        ∧ (step files pw st (.data (some .Pause))).1.pendingChunk = none
        ∧ (run files pw
             (step files pw (step files pw st (.data (some .Pause))).1
               (.data (some (.Start fn a)))).1
             (List.replicate (emitChunksFrom file fn a).length Event.tick)).2
            = (emitChunksFrom file fn a).map ChunkMsg.toMessage) := by
  intro file fn
  refine ⟨emit_flatten file fn 0, fun a => emit_final_split file fn a,
          fun a => emit_contiguous file fn a,
          fun a c hc => contiguous_ge _ a (emit_contiguous file fn a) c hc, ?_⟩
  intro files pw st a hU hv
  have hpause : step files pw st (.data (some .Pause)) =
      ({ st with status := .Paused, pendingChunk := none }, []) := by
    simp [step, hU]
  have hstart : (step files pw { st with status := .Paused, pendingChunk := none }
      (.data (some (.Start fn a)))).1.pendingChunk = some ⟨file, fn, a⟩ := by
    simp [step, hv]
  refine ⟨by rw [hpause], by rw [hpause], ?_⟩
  rw [hpause]
  exact run_ticks files pw file fn a _ hstart

/-- Claim C2 witness: pause and resume at offset 2 of a five-byte file. -/
theorem C2_reconstruction_witness :
    stUploading.status = .Uploading
  ∧ validateOffset [f5] f5.fileName 2 = some f5
  ∧ (step [f5] "" stUploading (.data (some .Pause))).1.status = .Paused :=
  ⟨rfl, rfl,
   ((C2_reconstruction f5 f5.fileName).2.2.2.2 [f5] "" stUploading 2 rfl rfl).1⟩

/-- Claim C3: a Start received while Ready or Paused closes the connection
unless the file name names an offered file with the offset at most its
size; validateOffset fails exactly when no offered file matches, so any
offset exceeding the size of every file of that name is rejected,
including for size 0; a valid Start instead moves to Uploading. -/
theorem C3_start_validation :
    (∀ (files : List UploadedFile) (fn : String) (off : Nat),
        validateOffset files fn off = none ↔
          ∀ f ∈ files, ¬(getFileName f = fn ∧ off ≤ f.size))
  ∧ (∀ (files : List UploadedFile) (pw : String) (st : ConnState) (fn : String) (off : Nat),
        st.status = .Ready ∨ st.status = .Paused →
        (∀ f ∈ files, getFileName f = fn → ¬ off ≤ f.size) →
        step files pw st (.data (some (.Start fn off)))
          = ({ st with status := .Closed, connClosed := true }, []))
  ∧ (∀ (files : List UploadedFile) (pw : String) (st : ConnState) (fn : String)
        (off : Nat) (file : UploadedFile),
        st.status = .Ready ∨ st.status = .Paused →
        validateOffset files fn off = some file →
        step files pw st (.data (some (.Start fn off)))
          = ({ st with
                status := .Uploading
                uploadingFileName := some fn
                uploadingOffset := some off
                pendingChunk := some ⟨file, fn, off⟩ }, [])) := by
  refine ⟨validateOffset_eq_none_iff, ?_, ?_⟩
  · intro files pw st fn off hst hno
    have hv : validateOffset files fn off = none := by
      rw [validateOffset_eq_none_iff]
      intro f hf
      rintro ⟨hname, hsize⟩
      exact hno f hf hname hsize
    simp [step, hv]
  · intro files pw st fn off file hst hv
    simp [step, hv, hst]

/-- Claim C3 witness: a Start at offset 1 of an empty (size 0) file is
rejected by closing the connection. -/
theorem C3_start_validation_witness :
    (stReady.status = .Ready ∨ stReady.status = .Paused)
  ∧ (∀ f ∈ [emptyFile], getFileName f = emptyFile.fileName → ¬ (1 ≤ f.size))
  ∧ step [emptyFile] "" stReady (.data (some (.Start emptyFile.fileName 1)))
      = ({ stReady with status := .Closed, connClosed := true }, []) :=
  ⟨Or.inl rfl, by decide,
   C3_start_validation.2.1 [emptyFile] "" stReady emptyFile.fileName 1 (Or.inl rfl) (by decide)⟩

/-- Claim C4: with a password configured, a Chunk can only be sent after an
event carrying a UsePassword whose candidate equals the configured password
was processed at a moment when the connection was Authenticating or
InvalidPassword, which is exactly the transition into Ready. Quantifying
over all event lists covers every prefix, so the correct UsePassword always
precedes the first Chunk. -/
theorem C4_password_gate :
    ∀ (files : List UploadedFile) (pw : String) (events : List Event),
      pw ≠ "" →
      (∃ m ∈ (run files pw (initConn files) events).2, isChunk m = true) →
      ∃ l1 l2, events = l1 ++ Event.data (some (Message.UsePassword pw)) :: l2 ∧
        ((run files pw (initConn files) l1).1.status = .Authenticating ∨
         (run files pw (initConn files) l1).1.status = .InvalidPassword) := by
  intro files pw events hpw hex
  by_contra hcon
  push_neg at hcon
  obtain ⟨m, hm, hchunk⟩ := hex
  have hall : ∀ l1 l2, events = l1 ++ Event.data (some (Message.UsePassword pw)) :: l2 →
      ¬((run files pw (initConn files) l1).1.status = .Authenticating ∨
        (run files pw (initConn files) l1).1.status = .InvalidPassword) :=
    fun l1 l2 heq => not_or.mpr (hcon l1 l2 heq)
  have hfalse := run_unauth files pw hpw events (initConn files)
    ⟨Or.inl rfl, rfl⟩ hall m hm
  rw [hfalse] at hchunk
  exact Bool.noConfusion hchunk

/-- Claim C4 witness: a full handshake with the correct password followed by
a Start and one chunk timeout. -/
theorem C4_password_gate_witness :
    (pw0 ≠ "" ∧ ∃ m ∈ (run [f3] pw0 (initConn [f3]) events4).2, isChunk m = true)
  ∧ ∃ l1 l2, events4 = l1 ++ Event.data (some (Message.UsePassword pw0)) :: l2 ∧
      ((run [f3] pw0 (initConn [f3]) l1).1.status = .Authenticating ∨
       (run [f3] pw0 (initConn [f3]) l1).1.status = .InvalidPassword) :=
  ⟨⟨by decide, by decide⟩,
   C4_password_gate [f3] pw0 events4 (by decide) (by decide)⟩

/-- Claim C5 counterexample: the report branch iterates the stale snapshot
the listener closure captured — typically the empty array from mount — and
never calls close on the report connection itself. With an empty snapshot
and one live open sibling, no Report is sent, the sibling is untouched
(still not closed), and the report connection is not closed either,
contradicting the claim that every other open connection receives a Report
and every connection including the report connection is closed. -/
theorem C5_report_counterexample :
    (handleReportConnection [] "" (initConn []) [] [(0, initConn [])]).sends = []
  ∧ (handleReportConnection [] "" (initConn []) [] [(0, initConn [])]).newConns
      = [(0, initConn [])]
  ∧ (handleReportConnection [] "" (initConn []) [] [(0, initConn [])]).reportConn.connClosed
      = false :=
  ⟨rfl, rfl, rfl⟩

/-- Claim C5 as amended: the report branch sends a Report message to and
closes exactly the connections in the stale snapshot of the connection
list captured when the listener was registered (the effect dependency list
excludes connections, so this is typically the empty list from mount);
each closed snapshot member has its chunk timeout cleared, so it receives
no further Chunk from later timeout firings; a connection whose id is
outside the snapshot — every sibling connected after registration — gets
no Report and is left completely untouched; the report connection itself
is not closed by the handler; the page is hard-redirected. -/
theorem C5_report_broadcast :
    ∀ (files : List UploadedFile) (pw : String) (r : ConnState)
      (snapshot : List Nat) (current : List (Nat × ConnState)),
      (handleReportConnection files pw r snapshot current).sends
        = snapshot.map (fun i => (i, Message.Report))
    ∧ (∀ ic ∈ (handleReportConnection files pw r snapshot current).newConns,
         snapshot.contains ic.1 = true →
           ic.2.connClosed = true ∧ ic.2.pendingChunk = none
         ∧ ∀ n, (run files pw ic.2 (List.replicate n Event.tick)).2 = [])
    ∧ (∀ ic ∈ current, snapshot.contains ic.1 = false →
         ic ∈ (handleReportConnection files pw r snapshot current).newConns)
    ∧ (handleReportConnection files pw r snapshot current).reportConn = r
    ∧ (handleReportConnection files pw r snapshot current).redirected = true := by
  intro files pw r snapshot current
  refine ⟨rfl, ?_, ?_, rfl, rfl⟩
  · intro ic hic hin
    simp only [handleReportConnection, List.mem_map] at hic
    obtain ⟨ic0, hic0, heq⟩ := hic
    by_cases hc : snapshot.contains ic0.1 = true
    · rw [if_pos hc] at heq
      subst heq
      refine ⟨rfl, rfl, ?_⟩
      intro n
      have hpend : (closeConnection files pw ic0.2).pendingChunk = none := rfl
      simp [ticks_noop files pw n _ hpend]
    · rw [if_neg hc] at heq
      subst heq
      exact absurd hin hc
  · intro ic hic hnc
    simp only [handleReportConnection]
    exact List.mem_map.mpr ⟨ic, hic, by rw [if_neg (by rw [hnc]; simp)]⟩

/-- Claim C5 witness: with a snapshot holding id 7 and a live list holding
ids 7 and 9, the snapshot member is closed and emits nothing on later
timeout firings, while the post-registration sibling with id 9 passes
through untouched. -/
theorem C5_report_broadcast_witness :
    (closeConnection [] "" (initConn [])).connClosed = true
  ∧ ((9 : Nat), initConn []) ∈ (handleReportConnection [] "" (initConn []) [7]
      [(7, initConn []), (9, initConn [])]).newConns := by
  have h := C5_report_broadcast [] "" (initConn []) [7] [(7, initConn []), (9, initConn [])]
  have hnew : (handleReportConnection [] "" (initConn []) [7]
      [(7, initConn []), (9, initConn [])]).newConns
      = [(7, closeConnection [] "" (initConn [])), (9, initConn [])] := rfl
  have hm : ((7 : Nat), closeConnection [] "" (initConn []))
      ∈ (handleReportConnection [] "" (initConn []) [7]
          [(7, initConn []), (9, initConn [])]).newConns := by
    rw [hnew]
    exact List.mem_cons_self _ _
  have hm9 : ((9 : Nat), initConn []) ∈ [((7 : Nat), initConn []), (9, initConn [])] :=
    List.mem_cons_of_mem _ (List.mem_cons_self _ _)
  exact ⟨(h.2.1 _ hm (by decide)).1, h.2.2.1 _ hm9 (by decide)⟩

/-- Claim C6 counterexample: a connection that never sent RequestInfo sends
a correct UsePassword from the Pending state and receives Info, because the
Info send in the UsePassword handler is outside the status guard. -/
theorem C6_info_counterexample :
    (run [] pw0 (initConn []) [Event.data (some (Message.UsePassword pw0))]).2
      = [Message.Info []]
  ∧ ∀ e ∈ [Event.data (some (Message.UsePassword pw0))], isRequestInfoEvent e = false :=
  ⟨by decide, by decide⟩

/-- Claim C6 as amended: the uploader sends Info only in response to a
RequestInfo or to a UsePassword whose candidate equals the configured
password; a correct UsePassword elicits Info even from a connection that
never sent RequestInfo, so Info can precede RequestInfo. -/
theorem C6_info_requires_request :
    ∀ (files : List UploadedFile) (pw : String) (st : ConnState) (events : List Event),
      (∃ m ∈ (run files pw st events).2, isInfo m = true) →
      ∃ e ∈ events, isRequestInfoEvent e = true ∨
        e = Event.data (some (Message.UsePassword pw)) := by
  intro files pw st events
  induction events generalizing st with
  | nil =>
      intro h
      obtain ⟨m, hm, _⟩ := h
      simp [run] at hm
  | cons e es ih =>
      intro h
      obtain ⟨m, hm, hinfo⟩ := h
      simp only [run, List.mem_append] at hm
      rcases hm with h1 | h2
      · exact ⟨e, List.mem_cons_self e es, step_info files pw st e ⟨m, h1, hinfo⟩⟩
      · obtain ⟨e2, he2, hp⟩ := ih (step files pw st e).1 ⟨m, h2, hinfo⟩
        exact ⟨e2, List.mem_cons_of_mem e he2, hp⟩

/-- Claim C6 witness: a RequestInfo with no password configured elicits
Info. -/
theorem C6_info_requires_request_witness :
    (∃ m ∈ (run [] "" (initConn []) [reqEv]).2, isInfo m = true)
  ∧ ∃ e ∈ [reqEv], isRequestInfoEvent e = true ∨
      e = Event.data (some (Message.UsePassword "")) :=
  ⟨by decide, C6_info_requires_request [] "" (initConn []) [reqEv] (by decide)⟩

/-- Claim C7: on transport close every state becomes Closed except that
InvalidPassword and Done are preserved. -/
theorem C7_transport_close :
    ∀ (files : List UploadedFile) (pw : String) (st : ConnState),
      ((st.status ≠ .InvalidPassword ∧ st.status ≠ .Done) →
        (step files pw st .transportClose).1.status = .Closed)
    ∧ (st.status = .InvalidPassword →
        (step files pw st .transportClose).1.status = .InvalidPassword)
    ∧ (st.status = .Done →
        (step files pw st .transportClose).1.status = .Done) := by
  intro files pw st
  refine ⟨?_, ?_, ?_⟩
  · rintro ⟨h1, h2⟩
    simp [step, h1, h2]
  · intro h
    simp [step, h]
  · intro h
    simp [step, h]

/-- Claim C7 witness: a transport close in Done keeps Done. -/
theorem C7_transport_close_witness :
    stDone.status = .Done ∧ (step [] "" stDone .transportClose).1.status = .Done :=
  ⟨rfl, (C7_transport_close [] "" stDone).2.2 rfl⟩

/-- Claim C8 counterexample: after a first RequestInfo the connection is
Ready, yet a second RequestInfo still gets a nonempty reply, contradicting
the claim that no reply message is sent outside Pending. -/
theorem C8_requestinfo_counterexample :
    (run [] "" (initConn []) [reqEv]).1.status ≠ UploaderConnectionStatus.Pending
  ∧ (step [] "" (run [] "" (initConn []) [reqEv]).1 reqEv).2 ≠ [] :=
  ⟨by decide, by decide⟩

/-- Claim C8 as amended: a RequestInfo received while not Pending leaves the
connection state unchanged, but the reply is still sent — PasswordRequired
when a password is configured, otherwise the Info catalog; only the state
update is guarded, not the reply. -/
theorem C8_requestinfo_guarded :
    ∀ (files : List UploadedFile) (pw : String) (st : ConnState) (info : ClientInfo),
      st.status ≠ .Pending →
      step files pw st (.data (some (.RequestInfo info)))
        = (st, if pw = "" then [Message.Info (fileCatalog files)]
               else [Message.PasswordRequired none]) := by
  intro files pw st info hst
  by_cases hp : pw = ""
  · simp [step, hp, hst]
  · simp [step, hp, hst]

/-- Claim C8 witness: a RequestInfo in the Ready state with no password. -/
theorem C8_requestinfo_guarded_witness :
    stReady.status ≠ .Pending
  ∧ step [emptyFile] "" stReady (.data (some (.RequestInfo ci0)))
      = (stReady, if ("" : String) = "" then [Message.Info (fileCatalog [emptyFile])]
                  else [Message.PasswordRequired none]) :=
  ⟨by decide, C8_requestinfo_guarded [emptyFile] "" stReady ci0 (by decide)⟩

/-- Claim C9: the destroy endpoint takes only a slug — no secret — and for
every nonempty slug returns success with status 200, whether or not the
slug names a record, and afterwards the slug no longer resolves at any
instant. -/
theorem C9_destroy_unauthenticated :
    ∀ (repo : ChannelRepo) (s : String), s ≠ "" →
      (destroyPOST repo (some s)).1.status = 200
    ∧ (destroyPOST repo (some s)).1.success = true
    ∧ ∀ now, resolveChannel (destroyPOST repo (some s)).2 s now = none := by
  intro repo s hs
  refine ⟨by simp [destroyPOST, hs], by simp [destroyPOST, hs], ?_⟩
  intro now
  have hfind : List.find? (fun r => matchesSlug r s && decide (now < r.expiresAt))
      (destroyChannel repo s) = none := by
    rw [List.find?_eq_none]
    intro r hr
    have hmem := (List.mem_filter.mp hr).2
    have hms : matchesSlug r s = false := by
      simpa using hmem
    simp [hms]
  simp [destroyPOST, hs, resolveChannel, hfind]

/-- Claim C9 witness: destroying an absent slug in the empty directory still
succeeds and the slug does not resolve. -/
theorem C9_destroy_unauthenticated_witness :
    pw0 ≠ ""
  ∧ (destroyPOST [] (some pw0)).1.status = 200
  ∧ resolveChannel (destroyPOST [] (some pw0)).2 pw0 5 = none :=
  ⟨by decide, (C9_destroy_unauthenticated [] pw0 (by decide)).1,
   (C9_destroy_unauthenticated [] pw0 (by decide)).2.2 5⟩

/-- Claim C10: a destroy request with a missing or empty slug is rejected
with status 400 and leaves the directory unchanged. -/
theorem C10_destroy_requires_slug :
    ∀ (repo : ChannelRepo),
      destroyPOST repo none = ({ status := 400, success := false }, repo)
    ∧ destroyPOST repo (some "") = ({ status := 400, success := false }, repo) := by
  intro repo
  constructor
  · rfl
  · simp [destroyPOST]

end FilePizza
